import Mathlib

/-
Verification development for the Quizzer server core.

The JavaScript sources are embedded shallowly:
- strings are modelled as lists of characters (JStr);
- the module-level mutable variables of DBHandler (collectionSet, quizSet,
  the document store contents, quizSetVersion) are gathered in DBState and
  every operation passes the state explicitly;
- the MongoDB driver is modelled by the `store` field of DBState together
  with a Boolean `writeOk` parameter giving the outcome of an upsert, and
  openDBConnection receives the enumeration of collections as a StoreDump;
- a JavaScript value that may or may not be a string (typeof checks in the
  socket handlers) is an Option JStr, where none stands for any non-string;
- asynchronous calls into modules that are not part of the embedded core
  (UserHandler) are parameters recording whether the returned promise
  resolves or rejects;
- a thrown TypeError inside insertNewWord (reading a property of an
  undefined cache entry) is the `crash` outcome.
-/

namespace Quizzer

/-- JavaScript strings are modelled as lists of characters. -/
abbrev JStr := List Char

/-- Characters matched by the \s class of JavaScript regular expressions,
restricted to the ASCII range that the application data uses. -/
def jsSpace (c : Char) : Bool :=
  c = ' ' || c = '\t' || c = '\n' || c = '\r' || c = '\x0b' || c = '\x0c'

/-- Characters in the regex class A-Za-z0-9. -/
def isAlnumAscii (c : Char) : Bool :=
  ('A' ≤ c && c ≤ 'Z') || ('a' ≤ c && c ≤ 'z') || ('0' ≤ c && c ≤ '9')

/-- A character matching the negated class of the normalization regex in
insertNewWord. For meanings the class is [^A-Za-z0-9\n\r\s]; for words a
literal hyphen is additionally excluded ([^A-Za-z0-9\n\r\s-]), which the
`hyphenOk` flag selects. -/
def padTrigger (hyphenOk : Bool) (c : Char) : Bool :=
  !(isAlnumAscii c) && !(jsSpace c) && !(hyphenOk && c = '-')

/-- One step of the global regex replacement
`replace(/([^A-Za-z0-9\n\r\s](?=[^\s]+))/gi, quoted-dollar-amp-space)`:
a matching character that is immediately followed by a non-space character
receives a space after it. The decision only looks at the original
neighbouring character, exactly like the zero-width lookahead. -/
def padOne (hyphenOk : Bool) (c : Char) (next : Option Char) : List Char :=
  match next with
  | some d => if padTrigger hyphenOk c && !(jsSpace d) then [c, ' '] else [c]
  | none => [c]

/-- The full global replacement pass of the normalization regex. -/
def padCh (hyphenOk : Bool) : List Char → List Char
  | [] => []
  | c :: rest => padOne hyphenOk c rest.head? ++ padCh hyphenOk rest

/-- JavaScript String.prototype.trim on the modelled character set. -/
def jsTrim (l : List Char) : List Char :=
  ((l.dropWhile jsSpace).reverse.dropWhile jsSpace).reverse

/-- The normalization applied to a meaning in insertNewWord (line 99 of
DBHandler): space padding after punctuation, then trim. -/
def normalizeMeaning (m : JStr) : JStr := jsTrim (padCh false m)

/-- The normalization applied to a word in insertNewWord (line 100 of
DBHandler): same as for meanings but tolerating a literal hyphen. -/
def normalizeWord (w : JStr) : JStr := jsTrim (padCh true w)

/-- JavaScript String.prototype.toLowerCase on the modelled character set. -/
def jsLower (l : JStr) : JStr := l.map Char.toLower

/-- The internal separator placed between accumulated meanings. -/
def meaningSep : JStr := ' ' :: '/' :: ' ' :: []

/-- The merge step of insertNewWord (lines 93 to 96 of DBHandler): when a
truthy existing meaning differs case-insensitively from the new one, the two
are concatenated with the separator; otherwise the new meaning stands. An
absent cache entry is `none`; the empty string is falsy in JavaScript, hence
the emptiness test. -/
def mergeMeaning (existing : Option JStr) (meaning : JStr) : JStr :=
  match existing with
  | some e => if e ≠ [] ∧ jsLower e ≠ jsLower meaning then e ++ meaningSep ++ meaning else meaning
  | none => meaning

/-- Finite maps keyed by JavaScript strings, as used for the quizSet cache
objects and the document store. -/
def Map (α : Type) : Type := JStr → Option α

/-- Update of a single key of a map. -/
def Map.set {α : Type} (m : Map α) (k : JStr) (v : α) : Map α :=
  fun q => if q = k then some v else m q

/-- The empty object literal. -/
def emptyMap {α : Type} : Map α := fun _ => none

/-- The module state of DBHandler: which collections have a driver handle
(collectionSet), the in-memory cache (quizSet), the durable contents of the
document store, and the version token. -/
structure DBState where
  collectionSet : JStr → Bool
  quizSet : Map (Map JStr)
  store : JStr → JStr → Option JStr
  quizSetVersion : JStr

/-- Lines 88 to 91 of DBHandler: if no handle is registered for the
collection, register one and reset the cache entry to an empty object. -/
def ensureCollection (s : DBState) (c : JStr) : DBState :=
  if s.collectionSet c then s
  else { s with
    collectionSet := fun q => q = c || s.collectionSet q,
    quizSet := Map.set s.quizSet c emptyMap }

/-- A single upsert keyed by word inside one collection, the effect of
updateOne with upsert true at line 102 of DBHandler. -/
def storeSet (st : JStr → JStr → Option JStr) (c w m : JStr) :
    JStr → JStr → Option JStr :=
  fun c2 w2 => if c2 = c ∧ w2 = w then some m else st c2 w2

/-- Lines 102 to 105 of DBHandler: write the document to the store, then
mirror the meaning into the cache entry of the collection. -/
def writeBack (s : DBState) (c : JStr) (coll : Map JStr) (w m : JStr) : DBState :=
  { s with
    store := storeSet s.store c w m,
    quizSet := Map.set s.quizSet c (Map.set coll w m) }

/-- Result of one insertNewWord call. `crash` is the TypeError raised when
the cache entry of a registered collection is undefined (possible for the
UserBase and root collections); `failed` is a rejected upsert, carrying the
state after the mutations that precede the write; `ok` carries the final
state and the returned triple. -/
inductive InsertOutcome where
  | crash : InsertOutcome
  | failed (s : DBState) : InsertOutcome
  | ok (s : DBState) (collectionName word meaning : JStr) : InsertOutcome

/-- Lines 87 to 111 of DBHandler. The `writeOk` parameter is the outcome of
the awaited updateOne call. The crashing case reads the cache entry before
any mutation, so the pre-call state is unchanged there. -/
def insertNewWord (writeOk : Bool) (s : DBState) (collectionName word meaning : JStr) :
    InsertOutcome :=
  let s1 := ensureCollection s collectionName
  match s1.quizSet collectionName with
  | none => .crash
  | some coll =>
    let merged := mergeMeaning (coll word) meaning
    let meaning1 := normalizeMeaning merged
    let word1 := normalizeWord word
    if writeOk then
      .ok (writeBack s1 collectionName coll word1 meaning1) collectionName word1 meaning1
    else
      .failed s1

/-- The state in which one insertNewWord call leaves the module, for every
outcome. -/
def insertResultState (writeOk : Bool) (s : DBState) (c w m : JStr) : DBState :=
  match insertNewWord writeOk s c w m with
  | .crash => s
  | .failed s1 => s1
  | .ok s2 _ _ _ => s2

/-- Whether an insertNewWord call completes successfully. -/
def insertSucceeds (writeOk : Bool) (s : DBState) (c w m : JStr) : Bool :=
  match insertNewWord writeOk s c w m with
  | .ok _ _ _ _ => true
  | _ => false

/-- Result of one insertWordsFromFile call; every constructor carries the
state in which the module is left. -/
inductive BulkOutcome where
  | crash (s : DBState) : BulkOutcome
  | failed (s : DBState) : BulkOutcome
  | ok (s : DBState) : BulkOutcome

/-- The module state carried by a bulk outcome. -/
def BulkOutcome.state : BulkOutcome → DBState
  | .crash s => s
  | .failed s => s
  | .ok s => s

/-- Lines 112 to 117 of DBHandler: iterate the word and meaning pairs in
list order, awaiting each insertNewWord before starting the next; the first
rejection aborts the loop. The pair list returned by getWordMeaningArray
(module FileToWordMeaningArray, outside the embedded sources) is a
parameter. A crashing insertNewWord leaves the state of its call unchanged,
so the crash outcome carries exactly that state. -/
def insertWordsFromFile (writeOk : Bool) (s : DBState) (collectionName : JStr)
    (wordMeaningArray : List (JStr × JStr)) : BulkOutcome :=
  match wordMeaningArray with
  | [] => .ok s
  | (w, m) :: rest =>
    match insertNewWord writeOk s collectionName w m with
    | .crash => .crash s
    | .failed s1 => .failed s1
    | .ok s2 _ _ _ => insertWordsFromFile writeOk s2 collectionName rest

/-- The state in which one insertWordsFromFile call leaves the module. -/
def bulkResultState (writeOk : Bool) (s : DBState) (c : JStr)
    (pairs : List (JStr × JStr)) : DBState :=
  (insertWordsFromFile writeOk s c pairs).state

/-- Line 74 of DBHandler. -/
def getQuizSetVersion (s : DBState) : JStr := s.quizSetVersion

/-- Line 77 of DBHandler. -/
def getQuizSet (s : DBState) : Map (Map JStr) := s.quizSet

/-- The meaning the cache currently associates to a word of a collection,
the value of the expression quizSet[c][w] when it does not throw. -/
def cacheMeaning (s : DBState) (c w : JStr) : Option JStr :=
  match s.quizSet c with
  | some coll => coll w
  | none => none

/-- The cache lookup insertNewWord performs at line 93, evaluated against
the state before the call: when the collection is unknown the lookup runs
on the freshly created empty entry. -/
def lookupAfterEnsure (s : DBState) (c w : JStr) : Option JStr :=
  if s.collectionSet c then cacheMeaning s c w else none

/-- The enumeration openDBConnection receives from listCollections together
with the version field of the root initializer document. Each collection is
listed with its documents as word and meaning pairs. -/
structure StoreDump where
  collections : List (JStr × List (JStr × JStr))
  rootQuizSetVersion : JStr

/-- Lines 61 to 63 of DBHandler: a find().forEach pass building the cache
entry of one collection, later documents overriding earlier ones with the
same word. -/
def collFromDocs (docs : List (JStr × JStr)) : Map JStr :=
  docs.foldl (fun coll d => Map.set coll d.1 d.2) emptyMap

/-- The module state before openDBConnection runs, given the durable store
contents: no handles, an empty cache, and the version initialized at line
26 of DBHandler. -/
def initialDBState (storeF : JStr → JStr → Option JStr) : DBState :=
  { collectionSet := fun _ => false,
    quizSet := fun _ => none,
    store := storeF,
    quizSetVersion := "0.0.0".data }

/-- One iteration of the collection loop of openDBConnection (lines 43 to
65 of DBHandler): every collection gets a handle; the reserved root
collection sets the version token (and the frozen mail credentials, not
modelled); the user collection is skipped; every other collection is loaded
into the cache. -/
def loadStep (rootVersion : JStr) (s : DBState) (entry : JStr × List (JStr × JStr)) : DBState :=
  let s1 : DBState := { s with collectionSet := fun q => q = entry.1 || s.collectionSet q }
  if entry.1 = "_Root".data then
    { s1 with quizSetVersion := rootVersion }
  else if entry.1 = "UserBase".data then s1
  else { s1 with quizSet := Map.set s1.quizSet entry.1 (collFromDocs entry.2) }

/-- Lines 43 to 65 of DBHandler: the loop over the enumerated collections.
openDBConnection performs no store write, so the store field is the given
durable contents throughout. -/
def openDBLoad (storeF : JStr → JStr → Option JStr) (dump : StoreDump) : DBState :=
  dump.collections.foldl (loadStep dump.rootQuizSetVersion) (initialDBState storeF)

/-- The module state right after startup against an empty store, used as a
concrete state for evaluations. -/
def freshState : DBState := initialDBState (fun _ _ => none)

/-- Whether the MongoClient.connect callback receives an error or a client;
in the latter case the enumerated contents follow. -/
inductive ConnectAttempt where
  | connErr : ConnectAttempt
  | connOk (storeF : JStr → JStr → Option JStr) (dump : StoreDump) : ConnectAttempt

/-- The observable state of the server process after startup: the DBHandler
state, whether httpServer.listen was reached, whether the connection error
was logged, and whether the process exited. -/
structure ServerState where
  db : DBState
  listening : Bool
  errorLogged : Bool
  processExited : Bool

/-- The startup sequence of the main module (lines 205 to 214) combined
with the openDBConnection callback protocol (lines 33 to 72 of DBHandler):
on a connection error the error is logged and the callback that would start
listening is never invoked, while the process keeps running; on success the
cache is loaded and the server listens. -/
def startupServer : ConnectAttempt → ServerState
  | .connErr =>
    { db := initialDBState (fun _ _ => none),
      listening := false, errorLogged := true, processExited := false }
  | .connOk storeF dump =>
    { db := openDBLoad storeF dump,
      listening := true, errorLogged := false, processExited := false }

/-- The data carried by a resolved login promise from UserHandler. Further
fields of the result object are produced outside the embedded sources and
are not modelled. -/
structure LoginResult where
  success : Bool
  reason : JStr

/-- Outcome of an awaited call into UserHandler. -/
inductive AsyncCall where
  | resolves (r : LoginResult) : AsyncCall
  | rejects : AsyncCall

/-- The events a socket handler can emit back to its connection. Payloads
produced outside the embedded sources are kept only where a claim reads
them. -/
inductive Event where
  | loginSuccess (r : LoginResult) : Event
  | adminPrivilegeGranted : Event
  | loginUnsuccessful (reason : JStr) : Event
  | signupSuccess : Event
  | signupUnsuccessful (reason : JStr) : Event
  | addWordSuccess (collectionName word meaning : JStr) : Event
  | addWordUnsuccessful : Event

/-- The reason string of the catch-all login and signup failure paths. -/
def invalidUserMail : JStr := "Invalid UserMail".data

/-- Lines 120 to 127 of the main module: reaction to the settled login
promise, including the admin notification after a successful login. -/
def emitLogin : AsyncCall → Bool → List Event
  | .rejects, _ => [.loginUnsuccessful invalidUserMail]
  | .resolves r, isAdmin =>
    if r.success then
      .loginSuccess r :: (if isAdmin then [.adminPrivilegeGranted] else [])
    else
      [.loginUnsuccessful r.reason]

/-- The userLogin handler, lines 110 to 132 of the main module. `mailRes`
is the result of validateUserMail on the userMail field: none when the
regular expression does not match and indexing the null match result throws.
`sessionId` and `password` are some only when the field holds a string.
When neither credential is a string the result variable stays undefined and
reading its success property throws into the same catch branch as an
invalid mail. A rejected login promise also lands in that catch branch. -/
def handleUserLogin (mailRes : Option JStr) (sessionId password : Option JStr)
    (sessionCall passwordCall : AsyncCall) (isAdmin : Bool) : List Event :=
  match mailRes with
  | none => [.loginUnsuccessful invalidUserMail]
  | some _ =>
    match sessionId with
    | some _ => emitLogin sessionCall isAdmin
    | none =>
      match password with
      | some _ => emitLogin passwordCall isAdmin
      | none => [.loginUnsuccessful invalidUserMail]

/-- Outcome of the awaited signUpNewUser call from UserHandler. -/
inductive SignupCall where
  | resolves (success : Bool) (reason : JStr) : SignupCall
  | rejects : SignupCall

/-- The userSignup handler, lines 134 to 152 of the main module. A rejected
signUpNewUser promise is caught by the inner catch, which only logs the
error and emits nothing. When password or websiteURL is not a string the
handler silently drops the request. -/
def handleUserSignup (mailRes : Option JStr) (password websiteURL : Option JStr)
    (call : SignupCall) : List Event :=
  match mailRes with
  | none => [.signupUnsuccessful invalidUserMail]
  | some _ =>
    match password, websiteURL with
    | some _, some _ =>
      match call with
      | .resolves true _ => [.signupSuccess]
      | .resolves false r => [.signupUnsuccessful r]
      | .rejects => []
    | _, _ => []

/-- The addNewWord handler, lines 165 to 175 of the main module, returning
the emitted events together with the DBHandler state it leaves behind. A
connection without admin privileges, and a payload whose fields are not all
strings, cause no reaction at all. The catch branch of the insert promise
fires both for a rejected upsert and for the TypeError crash, emitting the
failure event with the original payload (payload not modelled on the
event). -/
def handleAddNewWord (isAdmin : Bool) (collectionName word meaning : Option JStr)
    (writeOk : Bool) (s : DBState) : List Event × DBState :=
  if isAdmin then
    match collectionName, word, meaning with
    | some c, some w, some m =>
      match insertNewWord writeOk s c w m with
      | .ok s2 cr wr mr => ([.addWordSuccess cr wr mr], s2)
      | .failed s1 => ([.addWordUnsuccessful], s1)
      | .crash => ([.addWordUnsuccessful], s)
    | _, _, _ => ([], s)
  else ([], s)

/-! Basic lemmas about maps and state updates. -/

lemma Map.set_self {α : Type} (m : Map α) (k : JStr) (v : α) : Map.set m k v k = some v := by
  unfold Map.set
  simp

lemma Map.set_ne {α : Type} (m : Map α) (k q : JStr) (v : α) (h : q ≠ k) :
    Map.set m k v q = m q := by
  unfold Map.set
  simp [h]

lemma ensure_of_known {s : DBState} {c : JStr} (h : s.collectionSet c = true) :
    ensureCollection s c = s := by
  unfold ensureCollection
  simp [h]

lemma ensure_of_unknown {s : DBState} {c : JStr} (h : s.collectionSet c = false) :
    ensureCollection s c =
      { s with collectionSet := fun q => q = c || s.collectionSet q,
               quizSet := Map.set s.quizSet c emptyMap } := by
  unfold ensureCollection
  simp [h]

lemma ensure_version (s : DBState) (c : JStr) :
    (ensureCollection s c).quizSetVersion = s.quizSetVersion := by
  unfold ensureCollection
  split <;> rfl

lemma ensure_store (s : DBState) (c : JStr) :
    (ensureCollection s c).store = s.store := by
  unfold ensureCollection
  split <;> rfl

lemma ensure_collectionSet_self (s : DBState) (c : JStr) :
    (ensureCollection s c).collectionSet c = true := by
  unfold ensureCollection
  split
  · assumption
  · simp

lemma writeBack_version (s : DBState) (c : JStr) (coll : Map JStr) (w m : JStr) :
    (writeBack s c coll w m).quizSetVersion = s.quizSetVersion := rfl

lemma writeBack_collectionSet (s : DBState) (c : JStr) (coll : Map JStr) (w m : JStr) :
    (writeBack s c coll w m).collectionSet = s.collectionSet := rfl

lemma writeBack_quizSet_self (s : DBState) (c : JStr) (coll : Map JStr) (w m : JStr) :
    (writeBack s c coll w m).quizSet c = some (Map.set coll w m) := by
  show Map.set s.quizSet c (Map.set coll w m) c = some (Map.set coll w m)
  exact Map.set_self _ _ _

lemma writeBack_store_self (s : DBState) (c : JStr) (coll : Map JStr) (w m : JStr) :
    (writeBack s c coll w m).store c w = some m := by
  show storeSet s.store c w m c w = some m
  unfold storeSet
  simp

/-! Characterizations of the three outcomes of insertNewWord. -/

lemma insertNewWord_crash_eq {s : DBState} {c : JStr} (writeOk : Bool) (w m : JStr)
    (h : (ensureCollection s c).quizSet c = none) :
    insertNewWord writeOk s c w m = .crash := by
  unfold insertNewWord
  simp only [h]

lemma insertNewWord_ok_eq {s : DBState} {c : JStr} {coll : Map JStr} (w m : JStr)
    (h : (ensureCollection s c).quizSet c = some coll) :
    insertNewWord true s c w m =
      .ok (writeBack (ensureCollection s c) c coll (normalizeWord w)
            (normalizeMeaning (mergeMeaning (coll w) m)))
        c (normalizeWord w) (normalizeMeaning (mergeMeaning (coll w) m)) := by
  unfold insertNewWord
  simp only [h]
  rfl

lemma insertNewWord_failed_eq {s : DBState} {c : JStr} {coll : Map JStr} (w m : JStr)
    (h : (ensureCollection s c).quizSet c = some coll) :
    insertNewWord false s c w m = .failed (ensureCollection s c) := by
  unfold insertNewWord
  simp only [h]
  rfl

lemma exists_coll_of_succeeds {s : DBState} {c w m : JStr}
    (h : insertSucceeds true s c w m = true) :
    ∃ coll, (ensureCollection s c).quizSet c = some coll := by
  cases hq : (ensureCollection s c).quizSet c with
  | some coll => exact ⟨coll, rfl⟩
  | none =>
    unfold insertSucceeds at h
    rw [insertNewWord_crash_eq true w m hq] at h
    cases h

lemma insertResultState_ok {s : DBState} {c : JStr} {coll : Map JStr} (w m : JStr)
    (h : (ensureCollection s c).quizSet c = some coll) :
    insertResultState true s c w m =
      writeBack (ensureCollection s c) c coll (normalizeWord w)
        (normalizeMeaning (mergeMeaning (coll w) m)) := by
  unfold insertResultState
  rw [insertNewWord_ok_eq w m h]

lemma insertResultState_failed {s : DBState} {c : JStr} {coll : Map JStr} (w m : JStr)
    (h : (ensureCollection s c).quizSet c = some coll) :
    insertResultState false s c w m = ensureCollection s c := by
  unfold insertResultState
  rw [insertNewWord_failed_eq w m h]

lemma lookupAfterEnsure_eq {s : DBState} {c : JStr} {coll : Map JStr} (w : JStr)
    (h : (ensureCollection s c).quizSet c = some coll) :
    lookupAfterEnsure s c w = coll w := by
  unfold lookupAfterEnsure
  cases hk : s.collectionSet c with
  | true =>
    rw [ensure_of_known hk] at h
    simp [cacheMeaning, h]
  | false =>
    rw [ensure_of_unknown hk] at h
    have hset : Map.set s.quizSet c emptyMap c = some coll := h
    rw [Map.set_self] at hset
    cases hset
    simp [emptyMap]

/-! Frame lemmas for the version token. -/

lemma version_insert (writeOk : Bool) (s : DBState) (c w m : JStr) :
    (insertResultState writeOk s c w m).quizSetVersion = s.quizSetVersion := by
  cases hq : (ensureCollection s c).quizSet c with
  | none =>
    unfold insertResultState
    rw [insertNewWord_crash_eq writeOk w m hq]
  | some coll =>
    cases writeOk with
    | false =>
      rw [insertResultState_failed w m hq]
      exact ensure_version s c
    | true =>
      rw [insertResultState_ok w m hq]
      rw [writeBack_version]
      exact ensure_version s c

lemma version_bulk (writeOk : Bool) (s : DBState) (c : JStr)
    (pairs : List (JStr × JStr)) :
    (bulkResultState writeOk s c pairs).quizSetVersion = s.quizSetVersion := by
  induction pairs generalizing s with
  | nil => rfl
  | cons p rest ih =>
    obtain ⟨w, m⟩ := p
    unfold bulkResultState insertWordsFromFile
    cases h : insertNewWord writeOk s c w m with
    | crash => rfl
    | failed s1 =>
      have hv := version_insert writeOk s c w m
      unfold insertResultState at hv
      rw [h] at hv
      exact hv
    | ok s2 a b d =>
      have hv := version_insert writeOk s c w m
      unfold insertResultState at hv
      rw [h] at hv
      have := ih s2
      unfold bulkResultState at this
      rw [this, hv]

lemma loadStep_version_root (rv : JStr) (s : DBState) (entry : JStr × List (JStr × JStr))
    (h : entry.1 = "_Root".data) :
    (loadStep rv s entry).quizSetVersion = rv := by
  unfold loadStep
  simp [h]

lemma loadStep_version_other (rv : JStr) (s : DBState) (entry : JStr × List (JStr × JStr))
    (h : entry.1 ≠ "_Root".data) :
    (loadStep rv s entry).quizSetVersion = s.quizSetVersion := by
  unfold loadStep
  simp only [h, if_false]
  split <;> rfl

lemma load_fold_version (rv : JStr) :
    ∀ (entries : List (JStr × List (JStr × JStr))) (s : DBState),
      (("_Root".data ∈ entries.map Prod.fst) →
        (entries.foldl (loadStep rv) s).quizSetVersion = rv)
    ∧ ((¬ ("_Root".data ∈ entries.map Prod.fst)) →
        (entries.foldl (loadStep rv) s).quizSetVersion = s.quizSetVersion) := by
  intro entries
  induction entries with
  | nil =>
    intro s
    constructor
    · intro h
      simp at h
    · intro _
      rfl
  | cons e rest ih =>
    intro s
    simp only [List.foldl_cons]
    constructor
    · intro h
      rcases Classical.em ("_Root".data ∈ rest.map Prod.fst) with hm | hm
      · exact (ih (loadStep rv s e)).1 hm
      · have he : e.1 = "_Root".data := by
          simp only [List.map_cons, List.mem_cons] at h
          rcases h with h | h
          · exact h.symm
          · exact absurd h hm
        rw [(ih (loadStep rv s e)).2 hm, loadStep_version_root rv s e he]
    · intro h
      simp only [List.map_cons, List.mem_cons] at h
      push_neg at h
      rw [(ih (loadStep rv s e)).2 h.2, loadStep_version_other rv s e (fun hh => h.1 hh.symm)]

/-- C6: the version token returned by getQuizSetVersion is unchanged by
every insertNewWord and every insertWordsFromFile call, whatever their
outcome; it is set only by the openDBConnection load loop reading the root
configuration record, and keeps its initial value when no root record is
enumerated. -/
theorem c6_version_frame :
    (∀ (writeOk : Bool) (s : DBState) (c w m : JStr),
        getQuizSetVersion (insertResultState writeOk s c w m) = getQuizSetVersion s)
  ∧ (∀ (writeOk : Bool) (s : DBState) (c : JStr) (pairs : List (JStr × JStr)),
        getQuizSetVersion (bulkResultState writeOk s c pairs) = getQuizSetVersion s)
  ∧ (∀ (storeF : JStr → JStr → Option JStr) (dump : StoreDump),
        (("_Root".data ∈ dump.collections.map Prod.fst) →
          getQuizSetVersion (openDBLoad storeF dump) = dump.rootQuizSetVersion)
      ∧ ((¬ ("_Root".data ∈ dump.collections.map Prod.fst)) →
          getQuizSetVersion (openDBLoad storeF dump) = "0.0.0".data)) := by
  refine ⟨version_insert, version_bulk, ?_⟩
  intro storeF dump
  constructor
  · intro h
    exact (load_fold_version dump.rootQuizSetVersion dump.collections (initialDBState storeF)).1 h
  · intro h
    exact (load_fold_version dump.rootQuizSetVersion dump.collections (initialDBState storeF)).2 h

/-- Witness for C6 at a concrete store dump holding a root record with
version 1.2.3, discharging the membership hypothesis. -/
theorem c6_version_frame_witness :
    ("_Root".data ∈ (StoreDump.mk [("_Root".data, [])] "1.2.3".data).collections.map Prod.fst)
  ∧ getQuizSetVersion
      (openDBLoad (fun _ _ => none) (StoreDump.mk [("_Root".data, [])] "1.2.3".data))
      = "1.2.3".data :=
  ⟨by decide,
   (c6_version_frame.2.2 (fun _ _ => none)
      (StoreDump.mk [("_Root".data, [])] "1.2.3".data)).1 (by decide)⟩

/-- C5: a connection without admin privileges invoking addNewWord gets no
event back, in particular no success event, and the DBHandler state, hence
both the store contents and the cache, is untouched. -/
theorem c5_non_admin_no_effect (collectionName word meaning : Option JStr)
    (writeOk : Bool) (s : DBState) :
    handleAddNewWord false collectionName word meaning writeOk s = ([], s) := rfl

/-- C10: when validateUserMail succeeds on the userMail field but the
payload holds neither a string sessionId nor a string password, the result
variable stays undefined, reading its success property throws, and the
catch branch emits loginUnsuccessful with reason Invalid UserMail. -/
theorem c10_login_no_credentials (validatedMail : JStr)
    (sessionCall passwordCall : AsyncCall) (isAdmin : Bool) :
    handleUserLogin (some validatedMail) none none sessionCall passwordCall isAdmin
      = [Event.loginUnsuccessful invalidUserMail] := rfl

/-- Counterexample to C7: a signup request with a valid mail and string
password and websiteURL fields whose signUpNewUser promise rejects receives
no event at all, neither signupSuccess nor signupUnsuccessful; the inner
catch only logs. -/
theorem c7_counterexample :
    handleUserSignup (some "a@b.com".data) (some "pw".data) (some "http://x".data)
      SignupCall.rejects = [] := rfl

/-- C7 amended: a valid signup request receives exactly one success or
failure event when the signUpNewUser promise settles with a result object,
and an invalid mail receives exactly one failure event; but when the
promise rejects, the error is only logged and no event is emitted. -/
theorem c7_signup_events_amended :
    (∀ (mail p u reason : JStr) (b : Bool),
        handleUserSignup (some mail) (some p) (some u) (.resolves b reason)
          = if b then [Event.signupSuccess] else [Event.signupUnsuccessful reason])
  ∧ (∀ (p u : Option JStr) (call : SignupCall),
        handleUserSignup none p u call = [Event.signupUnsuccessful invalidUserMail])
  ∧ (∀ (mail p u : JStr),
        handleUserSignup (some mail) (some p) (some u) .rejects = []) := by
  refine ⟨?_, ?_, ?_⟩
  · intro mail p u reason b
    cases b <;> rfl
  · intro p u call
    rfl
  · intro mail p u
    rfl

/-- Counterexample to C9: after a store connection failure at startup the
success callback never runs, so httpServer.listen is never reached and no
client can connect. -/
theorem c9_counterexample : (startupServer ConnectAttempt.connErr).listening = false := rfl

/-- C9 amended: a store connection failure at startup is logged and does
not crash or exit the process, and the cache stays empty with the initial
version token; but the server never starts listening, so clients cannot
connect at all, rather than being served from the empty cache. -/
theorem c9_startup_failure_amended :
    (startupServer ConnectAttempt.connErr).errorLogged = true
  ∧ (startupServer ConnectAttempt.connErr).processExited = false
  ∧ (startupServer ConnectAttempt.connErr).listening = false
  ∧ getQuizSetVersion (startupServer ConnectAttempt.connErr).db = "0.0.0".data
  ∧ (∀ c : JStr, (startupServer ConnectAttempt.connErr).db.quizSet c = none) :=
  ⟨rfl, rfl, rfl, rfl, fun _ => rfl⟩

/-- Counterexample to C2: an insertNewWord call on a previously unknown
collection whose store write fails does modify the cache: the empty
collection entry created before the write survives the rejection. -/
theorem c2_counterexample :
    ((insertResultState false (initialDBState (fun _ _ => none))
        "Animals".data "cat".data "feline".data).quizSet "Animals".data).isSome = true
  ∧ ((initialDBState (fun _ _ => none)).quizSet "Animals".data).isSome = false := by
  constructor
  · rfl
  · rfl

/-- C2 amended: when the store write of insertNewWord fails, no word or
meaning mapping of any collection is added or changed and the store is
untouched; however, when the collection was previously unknown, an empty
collection entry is created in the cache (and a handle registered) before
the write is attempted. The hypothesis, true in every state reachable from
startup, says a cached collection also has a registered handle. -/
theorem c2_failed_write_amended (s : DBState) (c w m : JStr)
    (hinv : (s.quizSet c).isSome = true → s.collectionSet c = true) :
    (∀ c2 w2, cacheMeaning (insertResultState false s c w m) c2 w2 = cacheMeaning s c2 w2)
  ∧ (∀ c2 w2, (insertResultState false s c w m).store c2 w2 = s.store c2 w2)
  ∧ (s.collectionSet c = false →
      (insertResultState false s c w m).quizSet c = some emptyMap) := by
  cases hk : s.collectionSet c with
  | true =>
    cases hq : s.quizSet c with
    | some coll =>
      have he : (ensureCollection s c).quizSet c = some coll := by
        rw [ensure_of_known hk]
        exact hq
      rw [insertResultState_failed w m he, ensure_of_known hk]
      exact ⟨fun _ _ => rfl, fun _ _ => rfl, fun hcontra => absurd hcontra (by decide)⟩
    | none =>
      have he : (ensureCollection s c).quizSet c = none := by
        rw [ensure_of_known hk]
        exact hq
      unfold insertResultState
      rw [insertNewWord_crash_eq false w m he]
      exact ⟨fun _ _ => rfl, fun _ _ => rfl, fun hcontra => absurd hcontra (by decide)⟩
  | false =>
    have hq : s.quizSet c = none := by
      cases hq2 : s.quizSet c with
      | none => rfl
      | some coll =>
        have : s.collectionSet c = true := hinv (by rw [hq2]; rfl)
        rw [hk] at this
        cases this
    have he : (ensureCollection s c).quizSet c = some emptyMap := by
      rw [ensure_of_unknown hk]
      exact Map.set_self _ _ _
    rw [insertResultState_failed w m he, ensure_of_unknown hk]
    refine ⟨?_, fun _ _ => rfl, fun _ => Map.set_self _ _ _⟩
    intro c2 w2
    unfold cacheMeaning Map.set
    rcases Classical.em (c2 = c) with hc | hc
    · subst hc
      simp [hq, emptyMap]
    · simp [hc]

/-- C1: a successful insertNewWord leaves the cache entry of the collection
at the normalized word equal to the normalized, merge-resolved meaning, and
the value written to the store under that word is the identical value. The
merge resolution reads the cache entry that exists after the
collection-creation step, under the raw word. -/
theorem c1_write_through (s : DBState) (c w m : JStr)
    (h : insertSucceeds true s c w m = true) :
    cacheMeaning (insertResultState true s c w m) c (normalizeWord w)
        = some (normalizeMeaning (mergeMeaning (lookupAfterEnsure s c w) m))
  ∧ (insertResultState true s c w m).store c (normalizeWord w)
        = some (normalizeMeaning (mergeMeaning (lookupAfterEnsure s c w) m)) := by
  obtain ⟨coll, hq⟩ := exists_coll_of_succeeds h
  rw [insertResultState_ok w m hq, lookupAfterEnsure_eq w hq]
  constructor
  · unfold cacheMeaning
    rw [writeBack_quizSet_self]
    exact Map.set_self _ _ _
  · exact writeBack_store_self _ _ _ _ _

/-- Witness for C1 at the empty startup state. -/
theorem c1_write_through_witness :
    insertSucceeds true freshState "Fruits".data "apple".data "pomme".data = true
  ∧ (cacheMeaning (insertResultState true freshState "Fruits".data "apple".data "pomme".data)
        "Fruits".data (normalizeWord "apple".data)
      = some (normalizeMeaning
          (mergeMeaning (lookupAfterEnsure freshState "Fruits".data "apple".data) "pomme".data))
    ∧ (insertResultState true freshState "Fruits".data "apple".data "pomme".data).store
        "Fruits".data (normalizeWord "apple".data)
      = some (normalizeMeaning
          (mergeMeaning (lookupAfterEnsure freshState "Fruits".data "apple".data) "pomme".data))) :=
  ⟨by decide, c1_write_through freshState "Fruits".data "apple".data "pomme".data (by decide)⟩

/-- A collection satisfying the reachable-state invariant always yields a
cache entry after the collection-creation step. -/
lemma wf_ensure_some {s : DBState} {c : JStr}
    (hwf : s.collectionSet c = true → (s.quizSet c).isSome = true) :
    ∃ coll, (ensureCollection s c).quizSet c = some coll := by
  cases hk : s.collectionSet c with
  | true =>
    rw [ensure_of_known hk]
    have hs := hwf hk
    cases hq : s.quizSet c with
    | some coll => exact ⟨coll, rfl⟩
    | none => rw [hq] at hs; cases hs
  | false =>
    rw [ensure_of_unknown hk]
    exact ⟨emptyMap, Map.set_self _ _ _⟩

/-- A successful insert leaves a cache entry for its collection. -/
lemma wf_insert {s : DBState} {c : JStr} (w m : JStr) (coll : Map JStr)
    (hq : (ensureCollection s c).quizSet c = some coll) :
    ((insertResultState true s c w m).quizSet c).isSome = true := by
  rw [insertResultState_ok w m hq, writeBack_quizSet_self]
  rfl

/-- C8: with every upsert succeeding, insertWordsFromFile processes the
word and meaning pairs strictly sequentially in list order and equals a
left-to-right fold of insertNewWord over the input list. The hypothesis is
the reachable-state invariant that a registered collection has a cache
entry, which rules out the TypeError of the reserved collections. -/
theorem c8_sequential_fold (s : DBState) (c : JStr) (pairs : List (JStr × JStr))
    (hwf : s.collectionSet c = true → (s.quizSet c).isSome = true) :
    insertWordsFromFile true s c pairs
      = .ok (pairs.foldl (fun t p => insertResultState true t c p.1 p.2) s) := by
  induction pairs generalizing s with
  | nil => rfl
  | cons p rest ih =>
    obtain ⟨w, m⟩ := p
    obtain ⟨coll, hq⟩ := wf_ensure_some hwf
    have hstep : insertResultState true s c w m =
        writeBack (ensureCollection s c) c coll (normalizeWord w)
          (normalizeMeaning (mergeMeaning (coll w) m)) := insertResultState_ok w m hq
    have hwf2 : (insertResultState true s c w m).collectionSet c = true →
        ((insertResultState true s c w m).quizSet c).isSome = true :=
      fun _ => wf_insert w m coll hq
    have hih := ih (insertResultState true s c w m) hwf2
    rw [hstep] at hih
    unfold insertWordsFromFile
    rw [insertNewWord_ok_eq w m hq]
    simp only [List.foldl_cons]
    rw [hstep]
    exact hih

/-- Witness for C8 at the empty startup state and a two-element file. -/
theorem c8_sequential_fold_witness :
    (freshState.collectionSet "Fruits".data = true →
        (freshState.quizSet "Fruits".data).isSome = true)
  ∧ insertWordsFromFile true freshState "Fruits".data
        [("apple".data, "pomme".data), ("pear".data, "poire".data)]
      = .ok ([("apple".data, "pomme".data), ("pear".data, "poire".data)].foldl
          (fun t p => insertResultState true t "Fruits".data p.1 p.2) freshState) :=
  ⟨by decide,
   c8_sequential_fold freshState "Fruits".data
     [("apple".data, "pomme".data), ("pear".data, "poire".data)] (by decide)⟩

/-! Lemmas about the normalization pass: the padding step preserves the
first and last characters, it distributes over an append whose right part
starts with a space, and a string equal to its own normalization is a fixed
point of both the padding and the trim. -/

lemma padOne_eq_cons (hy : Bool) (c : Char) (n : Option Char) :
    ∃ u, padOne hy c n = c :: u := by
  cases n with
  | none => exact ⟨[], rfl⟩
  | some d =>
    show ∃ u, (if (padTrigger hy c && !(jsSpace d)) = true then [c, ' '] else [c]) = c :: u
    refine ⟨if (padTrigger hy c && !(jsSpace d)) = true then [' '] else [], ?_⟩
    by_cases hc : (padTrigger hy c && !(jsSpace d)) = true
    · rw [if_pos hc, if_pos hc]
    · rw [if_neg hc, if_neg hc]

lemma padCh_cons (hy : Bool) (c : Char) (t : List Char) :
    padCh hy (c :: t) = padOne hy c t.head? ++ padCh hy t := rfl

lemma padCh_ne_nil (hy : Bool) (c : Char) (t : List Char) : padCh hy (c :: t) ≠ [] := by
  obtain ⟨u, hu⟩ := padOne_eq_cons hy c t.head?
  rw [padCh_cons, hu]
  simp

lemma padCh_head? (hy : Bool) (l : List Char) : (padCh hy l).head? = l.head? := by
  cases l with
  | nil => rfl
  | cons c t =>
    obtain ⟨u, hu⟩ := padOne_eq_cons hy c t.head?
    rw [padCh_cons, hu]
    rfl

lemma padCh_getLast? (hy : Bool) (l : List Char) : (padCh hy l).getLast? = l.getLast? := by
  induction l with
  | nil => rfl
  | cons c t ih =>
    cases t with
    | nil => rfl
    | cons d u =>
      rw [padCh_cons, List.getLast?_append_of_ne_nil _ (padCh_ne_nil hy d u), ih,
        List.getLast?_cons_cons]

lemma dropWhile_head?_not (p : Char → Bool) :
    ∀ (l : List Char) (a : Char), (l.dropWhile p).head? = some a → p a = false := by
  intro l
  induction l with
  | nil =>
    intro a h
    cases h
  | cons c t ih =>
    intro a h
    rw [List.dropWhile_cons] at h
    cases hp : p c with
    | true =>
      rw [hp] at h
      simp only [if_true] at h
      exact ih a h
    | false =>
      rw [hp] at h
      simp only [Bool.false_eq_true, if_false, List.head?_cons, Option.some.injEq] at h
      rw [← h]
      exact hp

lemma dropWhile_eq_self_of_head (p : Char → Bool) (l : List Char)
    (h : ∀ a, l.head? = some a → p a = false) : l.dropWhile p = l := by
  cases l with
  | nil => rfl
  | cons c t =>
    rw [List.dropWhile_cons, h c rfl]
    simp

lemma jsTrim_eq_self (l : List Char)
    (h1 : ∀ a, l.head? = some a → jsSpace a = false)
    (h2 : ∀ a, l.getLast? = some a → jsSpace a = false) : jsTrim l = l := by
  unfold jsTrim
  rw [dropWhile_eq_self_of_head jsSpace l h1]
  rw [dropWhile_eq_self_of_head jsSpace l.reverse
    (fun a ha => h2 a (by rwa [List.head?_reverse] at ha))]
  exact List.reverse_reverse l

lemma getLast?_of_suffix {l1 l2 : List Char} (h : l1 <:+ l2) (hne : l1 ≠ []) :
    l1.getLast? = l2.getLast? := by
  obtain ⟨pre, rfl⟩ := h
  exact (List.getLast?_append_of_ne_nil pre hne).symm

lemma jsTrim_head?_not (l : List Char) (a : Char) (h : (jsTrim l).head? = some a) :
    jsSpace a = false := by
  unfold jsTrim at h
  rw [List.head?_reverse] at h
  have hne : List.dropWhile jsSpace ((List.dropWhile jsSpace l).reverse) ≠ [] := by
    intro hnil
    rw [hnil] at h
    cases h
  rw [getLast?_of_suffix (List.dropWhile_suffix jsSpace) hne, List.getLast?_reverse] at h
  exact dropWhile_head?_not jsSpace l a h

lemma jsTrim_getLast?_not (l : List Char) (a : Char) (h : (jsTrim l).getLast? = some a) :
    jsSpace a = false := by
  unfold jsTrim at h
  rw [List.getLast?_reverse] at h
  exact dropWhile_head?_not jsSpace _ a h

lemma norm_fixed_parts (hy : Bool) (m : List Char) (h : jsTrim (padCh hy m) = m) :
    padCh hy m = m ∧ jsTrim m = m := by
  have hH : ∀ a, m.head? = some a → jsSpace a = false := by
    intro a ha
    exact jsTrim_head?_not (padCh hy m) a (by rw [h]; exact ha)
  have hL : ∀ a, m.getLast? = some a → jsSpace a = false := by
    intro a ha
    exact jsTrim_getLast?_not (padCh hy m) a (by rw [h]; exact ha)
  have hpad : jsTrim (padCh hy m) = padCh hy m := by
    apply jsTrim_eq_self
    · intro a ha
      rw [padCh_head?] at ha
      exact hH a ha
    · intro a ha
      rw [padCh_getLast?] at ha
      exact hL a ha
  have hp : padCh hy m = m := by rw [← hpad, h]
  refine ⟨hp, ?_⟩
  rw [hp] at hpad
  exact hpad

lemma padCh_append_space (hy : Bool) :
    ∀ (xs ys : List Char), padCh hy (xs ++ ' ' :: ys) = padCh hy xs ++ padCh hy (' ' :: ys) := by
  intro xs
  induction xs with
  | nil =>
    intro ys
    rfl
  | cons c t ih =>
    intro ys
    cases t with
    | nil =>
      show padOne hy c (some ' ') ++ padCh hy (' ' :: ys)
          = [c] ++ padCh hy (' ' :: ys)
      congr 1
      show padOne hy c (some ' ') = [c]
      unfold padOne
      simp [jsSpace]
    | cons d u =>
      show padOne hy c (some d) ++ padCh hy ((d :: u) ++ ' ' :: ys)
          = (padOne hy c (some d) ++ padCh hy (d :: u)) ++ padCh hy (' ' :: ys)
      rw [ih ys, List.append_assoc]

lemma padCh_space_cons (hy : Bool) (ys : List Char) :
    padCh hy (' ' :: ys) = ' ' :: padCh hy ys := by
  cases ys with
  | nil => rfl
  | cons d u =>
    show padOne hy ' ' (some d) ++ padCh hy (d :: u) = ' ' :: padCh hy (d :: u)
    unfold padOne
    simp [padTrigger, jsSpace]

lemma padCh_slash_space (hy : Bool) (ys : List Char) :
    padCh hy ('/' :: ' ' :: ys) = '/' :: padCh hy (' ' :: ys) := by
  show padOne hy '/' (some ' ') ++ padCh hy (' ' :: ys) = '/' :: padCh hy (' ' :: ys)
  unfold padOne
  simp [jsSpace]

lemma padCh_sep_append (hy : Bool) (m1 m2 : List Char)
    (h1 : padCh hy m1 = m1) (h2 : padCh hy m2 = m2) :
    padCh hy (m1 ++ meaningSep ++ m2) = m1 ++ meaningSep ++ m2 := by
  have hshape : m1 ++ meaningSep ++ m2 = m1 ++ ' ' :: ('/' :: ' ' :: m2) := by
    simp [meaningSep]
  rw [hshape, padCh_append_space, padCh_space_cons, padCh_slash_space, padCh_space_cons, h1, h2]

lemma norm_merged (m1 m2 : List Char)
    (hm1 : normalizeMeaning m1 = m1) (hm2 : normalizeMeaning m2 = m2)
    (hne1 : m1 ≠ []) (hne2 : m2 ≠ []) :
    normalizeMeaning (m1 ++ meaningSep ++ m2) = m1 ++ meaningSep ++ m2 := by
  obtain ⟨hp1, ht1⟩ := norm_fixed_parts false m1 hm1
  obtain ⟨hp2, ht2⟩ := norm_fixed_parts false m2 hm2
  unfold normalizeMeaning
  rw [padCh_sep_append false m1 m2 hp1 hp2]
  apply jsTrim_eq_self
  · intro a ha
    rw [List.append_assoc, List.head?_append_of_ne_nil m1 hne1] at ha
    exact jsTrim_head?_not m1 a (by rw [ht1]; exact ha)
  · intro a ha
    rw [List.getLast?_append_of_ne_nil _ hne2] at ha
    exact jsTrim_getLast?_not m2 a (by rw [ht2]; exact ha)

/-! Lemmas about the merge step. -/

lemma mergeMeaning_none (m : JStr) : mergeMeaning none m = m := rfl

lemma mergeMeaning_some_ne (e m : JStr) (h1 : e ≠ []) (h2 : jsLower e ≠ jsLower m) :
    mergeMeaning (some e) m = e ++ meaningSep ++ m := by
  show (if e ≠ [] ∧ jsLower e ≠ jsLower m then e ++ meaningSep ++ m else m)
      = e ++ meaningSep ++ m
  rw [if_pos ⟨h1, h2⟩]

lemma mergeMeaning_some_keep (e m : JStr) (h : e = [] ∨ jsLower e = jsLower m) :
    mergeMeaning (some e) m = m := by
  show (if e ≠ [] ∧ jsLower e ≠ jsLower m then e ++ meaningSep ++ m else m) = m
  rcases h with h | h
  · exact if_neg (fun hc => hc.1 h)
  · exact if_neg (fun hc => hc.2 h)

lemma cacheMeaning_writeBack_self (s : DBState) (c : JStr) (coll : Map JStr) (w m : JStr) :
    cacheMeaning (writeBack s c coll w m) c w = some m := by
  unfold cacheMeaning
  rw [writeBack_quizSet_self]
  exact Map.set_self coll w m

/-- Counterexample to C3: for the word a,b the cache lookup of the second
insert runs under the raw word while the first insert cached the meaning
under the normalized word a, b, so no existing meaning is found, the merge
is skipped, and the second meaning y overwrites x instead of yielding
x / y. -/
theorem c3_counterexample :
    cacheMeaning (insertResultState true
        (insertResultState true freshState "c".data "a,b".data "x".data)
        "c".data "a,b".data "y".data) "c".data (normalizeWord "a,b".data)
      = some ("y".data)
  ∧ (insertResultState true
        (insertResultState true freshState "c".data "a,b".data "x".data)
        "c".data "a,b".data "y".data).store "c".data (normalizeWord "a,b".data)
      = some ("y".data)
  ∧ normalizeWord "a,b".data = "a, b".data
  ∧ ("y".data ≠ ("x / y".data)) := ⟨rfl, rfl, rfl, by decide⟩

/-- C3 amended: the merge law holds for a word that the normalization maps
to itself and whose entry is absent, and for nonempty meanings that the
normalization maps to themselves: inserting M1 then M2 (M2 not
case-insensitively equal to M1) stores M1 / M2, and inserting M3 (not
case-insensitively equal to M1 / M2) thereafter stores M1 / M2 / M3, in the
cache and in the store alike. -/
theorem c3_merge_law_amended (s : DBState) (c w m1 m2 m3 : JStr)
    (hwf : s.collectionSet c = true → (s.quizSet c).isSome = true)
    (habsent : lookupAfterEnsure s c w = none)
    (hw : normalizeWord w = w)
    (hm1 : normalizeMeaning m1 = m1) (hm2 : normalizeMeaning m2 = m2)
    (hm3 : normalizeMeaning m3 = m3)
    (hne1 : m1 ≠ []) (hne2 : m2 ≠ []) (hne3 : m3 ≠ [])
    (hd12 : jsLower m1 ≠ jsLower m2)
    (hd3 : jsLower (m1 ++ meaningSep ++ m2) ≠ jsLower m3) :
    (cacheMeaning (insertResultState true (insertResultState true s c w m1) c w m2) c w
        = some (m1 ++ meaningSep ++ m2)
      ∧ (insertResultState true (insertResultState true s c w m1) c w m2).store c w
        = some (m1 ++ meaningSep ++ m2))
  ∧ (cacheMeaning (insertResultState true (insertResultState true
          (insertResultState true s c w m1) c w m2) c w m3) c w
        = some ((m1 ++ meaningSep ++ m2) ++ meaningSep ++ m3)
      ∧ (insertResultState true (insertResultState true
          (insertResultState true s c w m1) c w m2) c w m3).store c w
        = some ((m1 ++ meaningSep ++ m2) ++ meaningSep ++ m3)) := by
  obtain ⟨coll0, hq0⟩ := wf_ensure_some hwf
  have hE0 : coll0 w = none := by
    rw [← lookupAfterEnsure_eq w hq0]
    exact habsent
  have h1 : insertResultState true s c w m1
      = writeBack (ensureCollection s c) c coll0 w m1 := by
    rw [insertResultState_ok w m1 hq0, hE0, mergeMeaning_none, hm1, hw]
  have hk1 : (insertResultState true s c w m1).collectionSet c = true := by
    rw [h1, writeBack_collectionSet]
    exact ensure_collectionSet_self s c
  have hq1 : (ensureCollection (insertResultState true s c w m1) c).quizSet c
      = some (Map.set coll0 w m1) := by
    rw [ensure_of_known hk1, h1]
    exact writeBack_quizSet_self _ _ _ _ _
  have hM12 : normalizeMeaning (m1 ++ meaningSep ++ m2) = m1 ++ meaningSep ++ m2 :=
    norm_merged m1 m2 hm1 hm2 hne1 hne2
  have h2 : insertResultState true (insertResultState true s c w m1) c w m2
      = writeBack (insertResultState true s c w m1) c (Map.set coll0 w m1) w
          (m1 ++ meaningSep ++ m2) := by
    rw [insertResultState_ok w m2 hq1, Map.set_self,
      mergeMeaning_some_ne m1 m2 hne1 hd12, hM12, hw, ensure_of_known hk1]
  have hcache2 : cacheMeaning (insertResultState true (insertResultState true s c w m1)
      c w m2) c w = some (m1 ++ meaningSep ++ m2) := by
    rw [h2]
    exact cacheMeaning_writeBack_self _ _ _ _ _
  have hstore2 : (insertResultState true (insertResultState true s c w m1) c w m2).store c w
      = some (m1 ++ meaningSep ++ m2) := by
    rw [h2]
    exact writeBack_store_self _ _ _ _ _
  have hk2 : (insertResultState true (insertResultState true s c w m1) c w m2).collectionSet c
      = true := by
    rw [h2, writeBack_collectionSet]
    exact hk1
  have hq2 : (ensureCollection (insertResultState true (insertResultState true s c w m1)
      c w m2) c).quizSet c
      = some (Map.set (Map.set coll0 w m1) w (m1 ++ meaningSep ++ m2)) := by
    rw [ensure_of_known hk2, h2]
    exact writeBack_quizSet_self _ _ _ _ _
  have hne12 : m1 ++ meaningSep ++ m2 ≠ [] :=
    List.append_ne_nil_of_left_ne_nil (List.append_ne_nil_of_left_ne_nil hne1 meaningSep) m2
  have hM123 : normalizeMeaning ((m1 ++ meaningSep ++ m2) ++ meaningSep ++ m3)
      = (m1 ++ meaningSep ++ m2) ++ meaningSep ++ m3 :=
    norm_merged _ m3 hM12 hm3 hne12 hne3
  have h3 : insertResultState true (insertResultState true (insertResultState true s c w m1)
      c w m2) c w m3
      = writeBack (insertResultState true (insertResultState true s c w m1) c w m2) c
          (Map.set (Map.set coll0 w m1) w (m1 ++ meaningSep ++ m2)) w
          ((m1 ++ meaningSep ++ m2) ++ meaningSep ++ m3) := by
    rw [insertResultState_ok w m3 hq2, Map.set_self,
      mergeMeaning_some_ne _ m3 hne12 hd3, hM123, hw, ensure_of_known hk2]
  refine ⟨⟨hcache2, hstore2⟩, ?_, ?_⟩
  · rw [h3]
    exact cacheMeaning_writeBack_self _ _ _ _ _
  · rw [h3]
    exact writeBack_store_self _ _ _ _ _

/-- Witness for C3 amended at the empty startup state with meanings alpha,
beta, gamma for the word cat. -/
theorem c3_merge_law_amended_witness :
    (freshState.collectionSet "Nouns".data = true →
        (freshState.quizSet "Nouns".data).isSome = true)
  ∧ lookupAfterEnsure freshState "Nouns".data "cat".data = none
  ∧ normalizeWord "cat".data = "cat".data
  ∧ normalizeMeaning "alpha".data = "alpha".data
  ∧ normalizeMeaning "beta".data = "beta".data
  ∧ normalizeMeaning "gamma".data = "gamma".data
  ∧ ("alpha".data ≠ ([] : JStr))
  ∧ ("beta".data ≠ ([] : JStr))
  ∧ ("gamma".data ≠ ([] : JStr))
  ∧ (jsLower "alpha".data ≠ jsLower "beta".data)
  ∧ (jsLower ("alpha".data ++ meaningSep ++ "beta".data) ≠ jsLower "gamma".data)
  ∧ ((cacheMeaning (insertResultState true (insertResultState true freshState
          "Nouns".data "cat".data "alpha".data) "Nouns".data "cat".data "beta".data)
        "Nouns".data "cat".data
        = some ("alpha".data ++ meaningSep ++ "beta".data)
      ∧ (insertResultState true (insertResultState true freshState
          "Nouns".data "cat".data "alpha".data) "Nouns".data "cat".data "beta".data).store
        "Nouns".data "cat".data
        = some ("alpha".data ++ meaningSep ++ "beta".data))
    ∧ (cacheMeaning (insertResultState true (insertResultState true (insertResultState true
          freshState "Nouns".data "cat".data "alpha".data) "Nouns".data "cat".data
          "beta".data) "Nouns".data "cat".data "gamma".data) "Nouns".data "cat".data
        = some (("alpha".data ++ meaningSep ++ "beta".data) ++ meaningSep ++ "gamma".data)
      ∧ (insertResultState true (insertResultState true (insertResultState true
          freshState "Nouns".data "cat".data "alpha".data) "Nouns".data "cat".data
          "beta".data) "Nouns".data "cat".data "gamma".data).store "Nouns".data "cat".data
        = some (("alpha".data ++ meaningSep ++ "beta".data) ++ meaningSep ++ "gamma".data))) :=
  ⟨by decide, by decide, by decide, by decide, by decide, by decide, by decide, by decide,
   by decide, by decide, by decide,
   c3_merge_law_amended freshState "Nouns".data "cat".data "alpha".data "beta".data
     "gamma".data (by decide) (by decide) (by decide) (by decide) (by decide) (by decide)
     (by decide) (by decide) (by decide) (by decide) (by decide)⟩

/-- Counterexample to C4: inserting the meaning a,b twice for a fresh word
duplicates it. The first call stores the normalized a, b; the second call
compares that cached value against the raw a,b, finds them different even
case-insensitively, and concatenates, yielding a, b / a, b. -/
theorem c4_counterexample :
    cacheMeaning (insertResultState true freshState "c".data "w".data "a,b".data)
        "c".data "w".data = some ("a, b".data)
  ∧ cacheMeaning (insertResultState true
        (insertResultState true freshState "c".data "w".data "a,b".data)
        "c".data "w".data "a,b".data) "c".data "w".data = some ("a, b / a, b".data)
  ∧ ("a, b / a, b".data ≠ "a, b".data) := ⟨rfl, rfl, by decide⟩

/-- C4 amended: inserting the same triple twice leaves the stored and
cached meaning of the normalized word identical to the value after the
first call, provided the meaning is unchanged by the normalization and the
pre-existing cache entry under the raw word is absent, empty, or
case-insensitively equal to the meaning; without those provisos the second
call can append a duplicate copy. -/
theorem c4_idempotent_amended (s : DBState) (c w m : JStr)
    (hwf : s.collectionSet c = true → (s.quizSet c).isSome = true)
    (hm : normalizeMeaning m = m)
    (hprev : ∀ e, lookupAfterEnsure s c w = some e → e = [] ∨ jsLower e = jsLower m) :
    cacheMeaning (insertResultState true (insertResultState true s c w m) c w m) c
        (normalizeWord w)
      = cacheMeaning (insertResultState true s c w m) c (normalizeWord w)
  ∧ (insertResultState true (insertResultState true s c w m) c w m).store c (normalizeWord w)
      = (insertResultState true s c w m).store c (normalizeWord w) := by
  obtain ⟨coll0, hq0⟩ := wf_ensure_some hwf
  have hmerge0 : normalizeMeaning (mergeMeaning (coll0 w) m) = m := by
    cases hE : coll0 w with
    | none =>
      rw [mergeMeaning_none]
      exact hm
    | some e =>
      rw [mergeMeaning_some_keep e m (hprev e ((lookupAfterEnsure_eq w hq0).trans hE))]
      exact hm
  have h1 : insertResultState true s c w m
      = writeBack (ensureCollection s c) c coll0 (normalizeWord w) m := by
    rw [insertResultState_ok w m hq0, hmerge0]
  have hk1 : (insertResultState true s c w m).collectionSet c = true := by
    rw [h1, writeBack_collectionSet]
    exact ensure_collectionSet_self s c
  have hq1 : (ensureCollection (insertResultState true s c w m) c).quizSet c
      = some (Map.set coll0 (normalizeWord w) m) := by
    rw [ensure_of_known hk1, h1]
    exact writeBack_quizSet_self _ _ _ _ _
  have hmerge1 : normalizeMeaning (mergeMeaning (Map.set coll0 (normalizeWord w) m w) m)
      = m := by
    rcases Classical.em (w = normalizeWord w) with hww | hww
    · rw [← hww, Map.set_self, mergeMeaning_some_keep m m (Or.inr rfl)]
      exact hm
    · rw [Map.set_ne coll0 (normalizeWord w) w m hww]
      exact hmerge0
  have h2 : insertResultState true (insertResultState true s c w m) c w m
      = writeBack (insertResultState true s c w m) c (Map.set coll0 (normalizeWord w) m)
          (normalizeWord w) m := by
    rw [insertResultState_ok w m hq1, hmerge1, ensure_of_known hk1]
  constructor
  · rw [h2, h1, cacheMeaning_writeBack_self, cacheMeaning_writeBack_self]
  · rw [h2, h1, writeBack_store_self, writeBack_store_self]

/-- Witness for C4 amended at the empty startup state. -/
theorem c4_idempotent_amended_witness :
    (freshState.collectionSet "c".data = true → (freshState.quizSet "c".data).isSome = true)
  ∧ normalizeMeaning "hello".data = "hello".data
  ∧ (cacheMeaning (insertResultState true (insertResultState true freshState
          "c".data "word".data "hello".data) "c".data "word".data "hello".data) "c".data
        (normalizeWord "word".data)
      = cacheMeaning (insertResultState true freshState "c".data "word".data "hello".data)
        "c".data (normalizeWord "word".data)
    ∧ (insertResultState true (insertResultState true freshState
          "c".data "word".data "hello".data) "c".data "word".data "hello".data).store
        "c".data (normalizeWord "word".data)
      = (insertResultState true freshState "c".data "word".data "hello".data).store
        "c".data (normalizeWord "word".data)) :=
  ⟨by decide, by decide,
   c4_idempotent_amended freshState "c".data "word".data "hello".data (by decide) (by decide)
     (fun _ he => nomatch he)⟩

/-- Witness for C2 amended at the empty startup state. -/
theorem c2_failed_write_amended_witness :
    (((initialDBState (fun _ _ => none)).quizSet "Animals".data).isSome = true →
        (initialDBState (fun _ _ => none)).collectionSet "Animals".data = true)
  ∧ (((initialDBState (fun _ _ => none)).collectionSet "Animals".data = false →
      (insertResultState false (initialDBState (fun _ _ => none))
          "Animals".data "cat".data "feline".data).quizSet "Animals".data = some emptyMap)) :=
  ⟨by decide,
   (c2_failed_write_amended (initialDBState (fun _ _ => none))
      "Animals".data "cat".data "feline".data (by decide)).2.2⟩

end Quizzer
